import Mathlib

/-!
Verification of the OpenSMTPD table-backend protocol engine
(`src/smtpd/table_api.c`).

The C file is shallowly embedded: payloads are lists of bytes (`Nat`,
meant `< 256`), the read cursor is the list of bytes not yet consumed,
fatal exits (`fatalx`) become `none` / a `fatal` constructor, and the
four global handler slots become a `Handlers` structure of `Option`
fields.  Machine 32-bit integers are encoded to and from four
little-endian bytes with explicit `% 2^32` arithmetic.
-/

namespace TableApi

/-- A payload byte.  The source works with `char`/`uint8_t` data. -/
abbrev Byte := Nat

/-- Little-endian encoding of a 32-bit unsigned value into four bytes,
mirroring how a `uint32_t`/`int` is laid out in the wire payload
(`memmove` into a 4-byte field). -/
def encodeU32 (n : Nat) : List Byte :=
  [n % 256, n / 256 % 256, n / 65536 % 256, n / 16777216 % 256]

/-- Little-endian decoding of four bytes into a 32-bit unsigned value,
mirroring `table_msg_get(&version, sizeof(version))`. -/
def decodeU32 (l : List Byte) : Nat :=
  l.getD 0 0 + 256 * l.getD 1 0 + 65536 * l.getD 2 0 + 16777216 * l.getD 3 0

/-- Encoding of a C `int` (two's complement, 32 bits) into four bytes,
as done by `imsg_compose(..., &r, sizeof(r))` and
`table_msg_add(&r, sizeof(r))`. -/
def encodeI32 (r : Int) : List Byte :=
  encodeU32 (r % 4294967296).toNat

/-- Decoding four bytes as a two's-complement 32-bit `int`. -/
def decodeI32 (l : List Byte) : Int :=
  let n := decodeU32 l
  if n < 2147483648 then (n : Int) else (n : Int) - 4294967296

/-- The C string found at a byte pointer: the bytes before the first
NUL.  This is what a handler taking `const char *` sees, and what
`strlen` measures. -/
def cstr (l : List Byte) : List Byte :=
  l.takeWhile (fun b => b ≠ 0)

/-- `table_msg_get(dst, len)` (table_api.c:47-63).  The read cursor is
the list of not-yet-consumed payload bytes (`rdata` points at its head
and `rlen` is its length).  `dst : Bool` records whether a destination
buffer was supplied (`dst != NULL`).  Returns `none` on the fatal
`len > rlen` path; otherwise the bytes copied out (when a destination
was given and `len ≠ 0`) and the new cursor. -/
def table_msg_get (dst : Bool) (len : Nat) (cur : List Byte) :
    Option (Option (List Byte) × List Byte) :=
  if len > cur.length then
    none
  else if len = 0 then
    some (none, cur)
  else
    some (if dst then some (cur.take len) else none, cur.drop len)

/-- `table_msg_end` (table_api.c:65-73): fatal when the cursor still
holds bytes, otherwise the message is released. -/
def table_msg_end (cur : List Byte) : Option Unit :=
  if cur.length ≠ 0 then none else some ()

/-- Modelled from the spec: the numeric value of `PROC_TABLE_API_VERSION`
lives in `smtpd-api.h`, which is not part of the sources; the spec only
says there is a single supported protocol version that `OPEN` must match
exactly.  Only equality with this constant is ever used. -/
def PROC_TABLE_API_VERSION : Nat := 1

/-- The six wire opcodes (`PROC_TABLE_*`), plus `UNKNOWN` standing for
every other value of `imsg.hdr.type` (the `default:` branch).  The
numeric values live in `smtpd-api.h`; only their distinctness matters. -/
inductive MsgType where
  | OPEN
  | UPDATE
  | CLOSE
  | CHECK
  | LOOKUP
  | FETCH
  | UNKNOWN
deriving DecidableEq, Repr

/-- The four optional handler slots (table_api.c:35-38), registered via
`table_api_on_update` / `_check` / `_lookup` / `_fetch`.
`update` takes no argument; `check` gets the service type and the key
string; `lookup` additionally fills a result buffer, modelled as the
returned byte list; `fetch` gets the type and fills the buffer. -/
structure Handlers where
  update : Option Int
  check : Option (Int → List Byte → Int)
  lookup : Option (Int → List Byte → Int × List Byte)
  fetch : Option (Int → Int × List Byte)

/-- The empty registry: no callback ever registered. -/
def noHandlers : Handlers := ⟨none, none, none, none⟩

/-- Outcome of `table_msg_dispatch`: either a `fatalx` exit, or normal
completion with the reply payload queued for this message (`none` for
`CLOSE`, which queues nothing) and the value of the `quit` flag. -/
inductive DOut where
  | fatal
  | ok (reply : Option (List Byte)) (quit : Bool)
deriving DecidableEq, Repr

/-- `table_msg_dispatch` (table_api.c:97-200), acting on one incoming
message of opcode `ty` with payload `payload` (the initial read cursor
`rdata`/`rlen`).  Every `table_msg_get` / `table_msg_end` failure and
every explicit `fatalx` is `DOut.fatal`.  The reply payload collects, in
order, the bytes passed to `imsg_compose` / `table_msg_add`. -/
def table_msg_dispatch (H : Handlers) (ty : MsgType) (payload : List Byte) :
    DOut :=
  match ty with
  | .OPEN =>
    match table_msg_get true 4 payload with
    | none => .fatal
    | some (_, rest) =>
      match table_msg_end rest with
      | none => .fatal
      | some _ =>
        let version := decodeU32 (payload.take 4)
        if version ≠ PROC_TABLE_API_VERSION then .fatal
        else .ok (some []) false
  | .UPDATE =>
    match table_msg_end payload with
    | none => .fatal
    | some _ =>
      let r : Int := match H.update with
        | some v => v
        | none => 1
      .ok (some (encodeI32 r)) false
  | .CLOSE => .ok none true
  | .CHECK =>
    match table_msg_get true 4 payload with
    | none => .fatal
    | some (_, rest) =>
      if rest.length = 0 then .fatal
      else if rest.getLast? ≠ some 0 then .fatal
      else
        let type := decodeI32 (payload.take 4)
        let r : Int := match H.check with
          | some f => f type (cstr rest)
          | none => -1
        match table_msg_get false rest.length rest with
        | none => .fatal
        | some (_, rest2) =>
          match table_msg_end rest2 with
          | none => .fatal
          | some _ => .ok (some (encodeI32 r)) false
  | .LOOKUP =>
    match table_msg_get true 4 payload with
    | none => .fatal
    | some (_, rest) =>
      if rest.length = 0 then .fatal
      else if rest.getLast? ≠ some 0 then .fatal
      else
        let type := decodeI32 (payload.take 4)
        let rv : Int × List Byte := match H.lookup with
          | some f => f type (cstr rest)
          | none => (-1, [])
        match table_msg_get false rest.length rest with
        | none => .fatal
        | some (_, rest2) =>
          match table_msg_end rest2 with
          | none => .fatal
          | some _ =>
            .ok (some (encodeI32 rv.1 ++
              if rv.1 = 1 then cstr rv.2 ++ [0] else [])) false
  | .FETCH =>
    match table_msg_get true 4 payload with
    | none => .fatal
    | some (_, rest) =>
      match table_msg_end rest with
      | none => .fatal
      | some _ =>
        let type := decodeI32 (payload.take 4)
        let rv : Int × List Byte := match H.fetch with
          | some f => f type
          | none => (-1, [])
        .ok (some (encodeI32 rv.1 ++
          if rv.1 = 1 then cstr rv.2 ++ [0] else [])) false
  | .UNKNOWN => .fatal

/-- One incoming frame: opcode plus payload. -/
abbrev Frame := MsgType × List Byte

/-- Reply a frame produces when its dispatch completes normally
without setting `quit`; `none` otherwise. -/
def flushedReply (H : Handlers) (f : Frame) : Option (List Byte) :=
  match table_msg_dispatch H f.1 f.2 with
  | .ok r false => r
  | _ => none

/-- Why the session loop stopped: input exhausted (peer closed the
pipe), the `quit` flag was set by a dispatched message, or a fatal
protocol error. -/
inductive LoopStop where
  | eof
  | quit
  | fatalErr
deriving DecidableEq, Repr

/-- Observable trace of one run of the session loop. -/
structure LoopOut where
  flushed : List (List Byte)
  dispatched : List Frame
  stop : LoopStop
deriving DecidableEq, Repr

/-- The session loop of `table_api_dispatch` (table_api.c:226-262),
driven by the list of complete frames the peer sends before closing the
pipe.  Each frame is dispatched; on `quit` the loop breaks before
flushing (table_api.c:244-245), otherwise the queued reply is flushed
and the loop continues; an empty input is the peer closing the pipe. -/
def table_api_loop (H : Handlers) : List Frame → LoopOut
  | [] => ⟨[], [], .eof⟩
  | f :: rest =>
    match table_msg_dispatch H f.1 f.2 with
    | .fatal => ⟨[], [f], .fatalErr⟩
    | .ok _ true => ⟨[], [f], .quit⟩
    | .ok reply false =>
      let out := table_api_loop H rest
      ⟨reply.toList ++ out.flushed, f :: out.dispatched, out.stop⟩

/-! ## Helper lemmas -/

/-- Reading a 4-byte field from a payload that starts with 4 bytes
splits off exactly those bytes. -/
theorem get4_split (t4 rest : List Byte) (ht : t4.length = 4) :
    table_msg_get true 4 (t4 ++ rest) = some (some t4, rest) := by
  unfold table_msg_get
  have h1 : ¬4 > (t4 ++ rest).length := by
    simp [List.length_append, ht]
  simp [h1, List.take_left' ht, List.drop_left' ht]
  omega

/-- `table_msg_get(NULL, rlen)` consumes the whole remaining cursor and
never hits the fatal branch. -/
theorem get_all (l : List Byte) :
    table_msg_get false l.length l = some (none, []) := by
  unfold table_msg_get
  by_cases h : l = []
  · subst h; simp
  · have h0 : l.length ≠ 0 := by simp [List.length_eq_zero, h]
    simp [h0, List.drop_length]

/-- The C string read at a key followed by a NUL and arbitrary trailing
bytes is exactly the key, when the key itself has no NUL. -/
theorem cstr_append_zero (key tail : List Byte) (h : ∀ b ∈ key, b ≠ 0) :
    cstr (key ++ 0 :: tail) = key := by
  unfold cstr
  induction key with
  | nil => simp [List.takeWhile]
  | cons a k ih =>
    have ha : a ≠ 0 := h a (by simp)
    rw [List.cons_append, List.takeWhile_cons_of_pos (by simp [ha])]
    rw [ih fun b hb => h b (by simp [hb])]

/-- Unsigned 32-bit round trip through the wire encoding. -/
theorem decodeU32_encodeU32 (v : Nat) (h : v < 4294967296) :
    decodeU32 (encodeU32 v) = v := by
  unfold decodeU32 encodeU32
  simp [List.getD]
  omega

/-- Reduced form of the `PROC_TABLE_CHECK` branch on a payload whose
key part is well-formed. -/
theorem dispatch_check_eq (H : Handlers) (t4 rest : List Byte)
    (ht : t4.length = 4) (hk : rest ≠ []) (hz : rest.getLast? = some 0) :
    table_msg_dispatch H .CHECK (t4 ++ rest) =
      .ok (some (encodeI32 (match H.check with
        | some f => f (decodeI32 ((t4 ++ rest).take 4)) (cstr rest)
        | none => -1))) false := by
  have h0 : rest.length ≠ 0 := by simp [List.length_eq_zero, hk]
  simp only [table_msg_dispatch, get4_split t4 rest ht]
  simp [h0, hz, get_all rest, table_msg_end]

/-- Reduced form of the `PROC_TABLE_LOOKUP` branch on a payload whose
key part is well-formed. -/
theorem dispatch_lookup_eq (H : Handlers) (t4 rest : List Byte)
    (ht : t4.length = 4) (hk : rest ≠ []) (hz : rest.getLast? = some 0) :
    table_msg_dispatch H .LOOKUP (t4 ++ rest) =
      (let rv : Int × List Byte := match H.lookup with
        | some f => f (decodeI32 ((t4 ++ rest).take 4)) (cstr rest)
        | none => (-1, [])
      .ok (some (encodeI32 rv.1 ++
        if rv.1 = 1 then cstr rv.2 ++ [0] else [])) false) := by
  have h0 : rest.length ≠ 0 := by simp [List.length_eq_zero, hk]
  simp only [table_msg_dispatch, get4_split t4 rest ht]
  simp [h0, hz, get_all rest, table_msg_end]

/-- Reduced form of the `PROC_TABLE_FETCH` branch on its exact 4-byte
payload. -/
theorem dispatch_fetch_eq (H : Handlers) (t4 : List Byte)
    (ht : t4.length = 4) :
    table_msg_dispatch H .FETCH t4 =
      (let rv : Int × List Byte := match H.fetch with
        | some f => f (decodeI32 (t4.take 4))
        | none => (-1, [])
      .ok (some (encodeI32 rv.1 ++
        if rv.1 = 1 then cstr rv.2 ++ [0] else [])) false) := by
  have h : table_msg_get true 4 t4 = some (some t4, []) := by
    have := get4_split t4 [] ht
    simpa using this
  simp only [table_msg_dispatch, h]
  simp [table_msg_end]

/-! ## Claim theorems -/

/-- C10: `table_msg_get` with requested length 0 never takes the fatal
branch and leaves the read cursor completely unchanged, copying no
bytes, whether or not a destination buffer is supplied and even when
the remaining length is already zero. -/
theorem c10_takeBytes_zero_noop (dst : Bool) (cur : List Byte) :
    table_msg_get dst 0 cur = some (none, cur) := by
  unfold table_msg_get
  simp

/-- C5: `table_msg_get` aborts fatally exactly when the requested
length exceeds the remaining length; when `n ≤ rlen` it succeeds,
removes exactly `n` bytes, and leaves `rlen - n` bytes remaining. -/
theorem c5_takeBytes_spec (dst : Bool) (n : Nat) (cur : List Byte) :
    (table_msg_get dst n cur = none ↔ n > cur.length) ∧
    (n ≤ cur.length →
      ∃ o, table_msg_get dst n cur = some (o, cur.drop n) ∧
        (cur.drop n).length = cur.length - n) := by
  constructor
  · unfold table_msg_get
    by_cases h : n > cur.length
    · simp [h]
    · by_cases h0 : n = 0 <;> simp [h, h0]
  · intro h
    have hng : ¬n > cur.length := not_lt.mpr h
    unfold table_msg_get
    by_cases h0 : n = 0
    · subst h0
      exact ⟨none, by simp, by simp⟩
    · exact ⟨if dst then some (cur.take n) else none,
        by simp [hng, h0], by simp⟩

/-- Witness for C5 at a concrete cursor. -/
theorem c5_takeBytes_spec_witness :
    (table_msg_get true 2 [5, 6, 7] = none ↔
      2 > ([5, 6, 7] : List Byte).length) ∧
    (2 ≤ ([5, 6, 7] : List Byte).length →
      ∃ o, table_msg_get true 2 [5, 6, 7] =
          some (o, ([5, 6, 7] : List Byte).drop 2) ∧
        (([5, 6, 7] : List Byte).drop 2).length =
          ([5, 6, 7] : List Byte).length - 2) :=
  c5_takeBytes_spec true 2 [5, 6, 7]

/-- C6: `table_msg_end` aborts fatally exactly when the read cursor
still holds bytes, and succeeds (releasing the message) when every
byte of the frame was consumed. -/
theorem c6_finishMessage_spec (cur : List Byte) :
    (table_msg_end cur = none ↔ cur.length ≠ 0) ∧
    (cur.length = 0 → table_msg_end cur = some ()) := by
  unfold table_msg_end
  by_cases h : cur.length ≠ 0 <;> simp [h]

/-- Witness for C6 at an empty and a non-empty cursor. -/
theorem c6_finishMessage_spec_witness :
    ((table_msg_end [] = none ↔ ([] : List Byte).length ≠ 0) ∧
      (([] : List Byte).length = 0 → table_msg_end [] = some ())) ∧
    ((table_msg_end [7] = none ↔ ([7] : List Byte).length ≠ 0) ∧
      (([7] : List Byte).length = 0 → table_msg_end [7] = some ())) :=
  ⟨c6_finishMessage_spec [], c6_finishMessage_spec [7]⟩

/-- C1 counterexample: a dispatched `UPDATE` with no registered update
handler replies with result `1`, not `-1` (table_api.c:123 sets
`r = 1` in the `else` branch). -/
theorem c1_update_counterexample :
    table_msg_dispatch noHandlers .UPDATE [] =
      .ok (some (encodeI32 1)) false ∧
    decodeI32 (encodeI32 1) = 1 ∧
    encodeI32 1 ≠ encodeI32 (-1) := by decide

/-- C1 amended: with no registered handler, `CHECK`, `LOOKUP` and
`FETCH` reply with result exactly `-1`, while `UPDATE` replies with
result `1`. -/
theorem c1_noHandler_result (H : Handlers) (t4 key : List Byte)
    (hup : H.update = none) (hck : H.check = none) (hlk : H.lookup = none)
    (hft : H.fetch = none) (ht : t4.length = 4) (hk : key ≠ [])
    (hz : key.getLast? = some 0) :
    table_msg_dispatch H .CHECK (t4 ++ key) =
      .ok (some (encodeI32 (-1))) false ∧
    table_msg_dispatch H .LOOKUP (t4 ++ key) =
      .ok (some (encodeI32 (-1))) false ∧
    table_msg_dispatch H .FETCH t4 =
      .ok (some (encodeI32 (-1))) false ∧
    table_msg_dispatch H .UPDATE [] =
      .ok (some (encodeI32 1)) false := by
  refine ⟨?_, ?_, ?_, ?_⟩
  · rw [dispatch_check_eq H t4 key ht hk hz, hck]
  · rw [dispatch_lookup_eq H t4 key ht hk hz, hlk]
    simp
  · rw [dispatch_fetch_eq H t4 ht, hft]
    simp
  · simp [table_msg_dispatch, table_msg_end, hup]

/-- Witness for the amended C1 on concrete payloads. -/
theorem c1_noHandler_result_witness :
    table_msg_dispatch noHandlers .CHECK ([0, 0, 0, 0] ++ [107, 0]) =
      .ok (some (encodeI32 (-1))) false ∧
    table_msg_dispatch noHandlers .LOOKUP ([0, 0, 0, 0] ++ [107, 0]) =
      .ok (some (encodeI32 (-1))) false ∧
    table_msg_dispatch noHandlers .FETCH [0, 0, 0, 0] =
      .ok (some (encodeI32 (-1))) false ∧
    table_msg_dispatch noHandlers .UPDATE [] =
      .ok (some (encodeI32 1)) false :=
  c1_noHandler_result noHandlers [0, 0, 0, 0] [107, 0]
    rfl rfl rfl rfl rfl (by decide) rfl

/-- C2: for `CHECK` and `LOOKUP`, an empty remaining payload after the
4-byte type tag, or a final byte that is not NUL, is fatal before any
handler runs; when both conditions hold the registered handler is
invoked with the key string found at the cursor. -/
theorem c2_checkLookup_validation (H : Handlers)
    (f : Int → List Byte → Int) (g : Int → List Byte → Int × List Byte)
    (t4 rest : List Byte) (ht : t4.length = 4) :
    ((rest = [] ∨ rest.getLast? ≠ some 0) →
      table_msg_dispatch H .CHECK (t4 ++ rest) = .fatal ∧
      table_msg_dispatch H .LOOKUP (t4 ++ rest) = .fatal) ∧
    (rest ≠ [] → rest.getLast? = some 0 →
      (H.check = some f →
        table_msg_dispatch H .CHECK (t4 ++ rest) =
          .ok (some (encodeI32 (f (decodeI32 t4) (cstr rest)))) false) ∧
      (H.lookup = some g →
        table_msg_dispatch H .LOOKUP (t4 ++ rest) =
          .ok (some (encodeI32 (g (decodeI32 t4) (cstr rest)).1 ++
            (if (g (decodeI32 t4) (cstr rest)).1 = 1
             then cstr (g (decodeI32 t4) (cstr rest)).2 ++ [0]
             else []))) false)) := by
  constructor
  · intro h
    simp only [table_msg_dispatch, get4_split t4 rest ht]
    by_cases hr : rest = []
    · subst hr; simp
    · have h0 : rest.length ≠ 0 := by simp [List.length_eq_zero, hr]
      have hlast : rest.getLast? ≠ some 0 := by
        rcases h with h | h
        · exact absurd h hr
        · exact h
      simp [h0, hlast]
  · intro hk hz
    constructor
    · intro hf
      rw [dispatch_check_eq H t4 rest ht hk hz, hf, List.take_left' ht]
    · intro hg
      rw [dispatch_lookup_eq H t4 rest ht hk hz, hg, List.take_left' ht]

/-- An always-affirmative check handler used in witnesses. -/
def fcheck : Int → List Byte → Int := fun t k => t + k.length

/-- A lookup handler echoing its key, used in witnesses. -/
def flookup : Int → List Byte → Int × List Byte := fun _ k => (1, k)

/-- A registry with check and lookup handlers, used in witnesses. -/
def H2 : Handlers := ⟨none, some fcheck, some flookup, none⟩

/-- Witness for C2: a key lacking its NUL terminator is fatal, and a
well-formed key reaches the check handler. -/
theorem c2_checkLookup_validation_witness :
    table_msg_dispatch H2 .CHECK ([0, 0, 0, 0] ++ [1, 2, 3]) = .fatal ∧
    table_msg_dispatch H2 .CHECK ([0, 0, 0, 0] ++ [107, 0]) =
      .ok (some (encodeI32 (fcheck (decodeI32 [0, 0, 0, 0])
        (cstr [107, 0])))) false :=
  ⟨((c2_checkLookup_validation H2 fcheck flookup [0, 0, 0, 0] [1, 2, 3]
      rfl).1 (Or.inr (by decide))).1,
   ((c2_checkLookup_validation H2 fcheck flookup [0, 0, 0, 0] [107, 0]
      rfl).2 (by decide) rfl).1 rfl⟩

/-- C3: an `OPEN` carrying a 4-byte version field is acknowledged with
an empty-payload reply when the version matches
`PROC_TABLE_API_VERSION`, and is fatal (no reply queued) when it
differs. -/
theorem c3_open_version (H : Handlers) (v : Nat) (hv : v < 4294967296) :
    (v = PROC_TABLE_API_VERSION →
      table_msg_dispatch H .OPEN (encodeU32 v) = .ok (some []) false) ∧
    (v ≠ PROC_TABLE_API_VERSION →
      table_msg_dispatch H .OPEN (encodeU32 v) = .fatal) := by
  have hlen : (encodeU32 v).length = 4 := rfl
  have hget : table_msg_get true 4 (encodeU32 v) =
      some (some (encodeU32 v), []) := by
    simpa using get4_split (encodeU32 v) [] hlen
  have htake : (encodeU32 v).take 4 = encodeU32 v :=
    List.take_of_length_le (le_of_eq hlen)
  constructor
  · intro h
    subst h
    simp [table_msg_dispatch, hget, table_msg_end, htake,
      decodeU32_encodeU32 _ hv]
  · intro h
    simp [table_msg_dispatch, hget, table_msg_end, htake,
      decodeU32_encodeU32 v hv, h]

/-- Witness for C3: matching version acknowledged, next version fatal. -/
theorem c3_open_version_witness :
    table_msg_dispatch noHandlers .OPEN
      (encodeU32 PROC_TABLE_API_VERSION) = .ok (some []) false ∧
    table_msg_dispatch noHandlers .OPEN
      (encodeU32 (PROC_TABLE_API_VERSION + 1)) = .fatal :=
  ⟨(c3_open_version noHandlers PROC_TABLE_API_VERSION (by decide)).1 rfl,
   (c3_open_version noHandlers (PROC_TABLE_API_VERSION + 1)
      (by decide)).2 (by decide)⟩

/-- Shape of the reply built for `LOOKUP`/`FETCH` from a handler
result `r` and buffer `v`: the first 4 bytes encode `r`, and value
bytes follow exactly when `r = 1`. -/
theorem reply_shape (r : Int) (v : List Byte) :
    (encodeI32 r ++ (if r = 1 then cstr v ++ [0] else [])).take 4 =
      encodeI32 r ∧
    ((encodeI32 r ++ (if r = 1 then cstr v ++ [0] else [])).drop 4 ≠ [] ↔
      r = 1) ∧
    (r = 1 →
      (encodeI32 r ++ (if r = 1 then cstr v ++ [0] else [])).drop 4 =
        cstr v ++ [0]) ∧
    (r ≠ 1 →
      encodeI32 r ++ (if r = 1 then cstr v ++ [0] else []) =
        encodeI32 r) := by
  have h4 : (encodeI32 r).length = 4 := rfl
  refine ⟨List.take_left' h4, ?_, ?_, ?_⟩
  · rw [List.drop_left' h4]
    by_cases hr : r = 1 <;> simp [hr]
  · intro hr
    rw [List.drop_left' h4]
    simp [hr]
  · intro hr
    simp [hr]

/-- C4: a `LOOKUP` or `FETCH` reply carries a NUL-terminated value
after the 4-byte result exactly when the result equals `1`; for every
other result the reply is the 4 result bytes alone. -/
theorem c4_lookupFetch_value_iff (H : Handlers)
    (f : Int → List Byte → Int × List Byte) (g : Int → Int × List Byte)
    (t4 key : List Byte) (ht : t4.length = 4) (hk : key ≠ [])
    (hz : key.getLast? = some 0) (hf : H.lookup = some f)
    (hg : H.fetch = some g) :
    (∃ rep, table_msg_dispatch H .LOOKUP (t4 ++ key) =
        .ok (some rep) false ∧
      rep.take 4 = encodeI32 (f (decodeI32 t4) (cstr key)).1 ∧
      (rep.drop 4 ≠ [] ↔ (f (decodeI32 t4) (cstr key)).1 = 1) ∧
      ((f (decodeI32 t4) (cstr key)).1 = 1 →
        rep.drop 4 = cstr (f (decodeI32 t4) (cstr key)).2 ++ [0]) ∧
      ((f (decodeI32 t4) (cstr key)).1 ≠ 1 →
        rep = encodeI32 (f (decodeI32 t4) (cstr key)).1)) ∧
    (∃ rep, table_msg_dispatch H .FETCH t4 = .ok (some rep) false ∧
      rep.take 4 = encodeI32 (g (decodeI32 t4)).1 ∧
      (rep.drop 4 ≠ [] ↔ (g (decodeI32 t4)).1 = 1) ∧
      ((g (decodeI32 t4)).1 = 1 →
        rep.drop 4 = cstr (g (decodeI32 t4)).2 ++ [0]) ∧
      ((g (decodeI32 t4)).1 ≠ 1 →
        rep = encodeI32 (g (decodeI32 t4)).1)) := by
  have htake : t4.take 4 = t4 := List.take_of_length_le (le_of_eq ht)
  constructor
  · have hd := dispatch_lookup_eq H t4 key ht hk hz
    simp only [hf, List.take_left' ht] at hd
    exact ⟨_, hd, (reply_shape _ _).1, (reply_shape _ _).2.1,
      (reply_shape _ _).2.2.1, (reply_shape _ _).2.2.2⟩
  · have hd := dispatch_fetch_eq H t4 ht
    simp only [hg, htake] at hd
    exact ⟨_, hd, (reply_shape _ _).1, (reply_shape _ _).2.1,
      (reply_shape _ _).2.2.1, (reply_shape _ _).2.2.2⟩

/-- A lookup handler answering found with value byte `65`. -/
def f4 : Int → List Byte → Int × List Byte := fun _ _ => (1, [65])

/-- A fetch handler answering not-found. -/
def g4 : Int → Int × List Byte := fun _ => (0, [])

/-- A registry with the two witness handlers for C4. -/
def H4 : Handlers := ⟨none, none, some f4, some g4⟩

/-- Witness for C4: found lookup carries a value, not-found fetch is
bare. -/
theorem c4_lookupFetch_value_iff_witness :
    (∃ rep, table_msg_dispatch H4 .LOOKUP ([0, 0, 0, 0] ++ [107, 0]) =
        .ok (some rep) false ∧
      rep.take 4 = encodeI32 (f4 (decodeI32 [0, 0, 0, 0])
        (cstr [107, 0])).1 ∧
      (rep.drop 4 ≠ [] ↔
        (f4 (decodeI32 [0, 0, 0, 0]) (cstr [107, 0])).1 = 1) ∧
      ((f4 (decodeI32 [0, 0, 0, 0]) (cstr [107, 0])).1 = 1 →
        rep.drop 4 =
          cstr (f4 (decodeI32 [0, 0, 0, 0]) (cstr [107, 0])).2 ++ [0]) ∧
      ((f4 (decodeI32 [0, 0, 0, 0]) (cstr [107, 0])).1 ≠ 1 →
        rep = encodeI32 (f4 (decodeI32 [0, 0, 0, 0])
          (cstr [107, 0])).1)) ∧
    (∃ rep, table_msg_dispatch H4 .FETCH [0, 0, 0, 0] =
        .ok (some rep) false ∧
      rep.take 4 = encodeI32 (g4 (decodeI32 [0, 0, 0, 0])).1 ∧
      (rep.drop 4 ≠ [] ↔ (g4 (decodeI32 [0, 0, 0, 0])).1 = 1) ∧
      ((g4 (decodeI32 [0, 0, 0, 0])).1 = 1 →
        rep.drop 4 = cstr (g4 (decodeI32 [0, 0, 0, 0])).2 ++ [0]) ∧
      ((g4 (decodeI32 [0, 0, 0, 0])).1 ≠ 1 →
        rep = encodeI32 (g4 (decodeI32 [0, 0, 0, 0])).1)) :=
  c4_lookupFetch_value_iff H4 f4 g4 [0, 0, 0, 0] [107, 0]
    rfl (by decide) rfl rfl rfl

/-- C7: once a `CLOSE` frame is dispatched the session loop stops:
frames after it are never read or dispatched, and nothing is flushed
for the `CLOSE` itself — the flushed replies are exactly those of the
preceding frames. -/
theorem c7_close_stops (H : Handlers) (pre post : List Frame)
    (pl : List Byte)
    (hpre : ∀ f ∈ pre, ∃ r, table_msg_dispatch H f.1 f.2 = .ok r false) :
    table_api_loop H (pre ++ (MsgType.CLOSE, pl) :: post) =
      ⟨pre.filterMap (flushedReply H),
       pre ++ [(MsgType.CLOSE, pl)], .quit⟩ := by
  induction pre with
  | nil =>
    simp [table_api_loop, table_msg_dispatch]
  | cons f pre ih =>
    obtain ⟨r, hr⟩ := hpre f (by simp)
    have ih' := ih fun x hx => hpre x (by simp [hx])
    simp only [List.cons_append, table_api_loop, hr, ih',
      List.filterMap_cons, flushedReply]
    cases r <;> simp [ih']

/-- Witness for C7: one `UPDATE` before `CLOSE` is dispatched and
flushed, one `FETCH` after it is never reached. -/
theorem c7_close_stops_witness :
    table_api_loop noHandlers
        ([(MsgType.UPDATE, [])] ++
          (MsgType.CLOSE, []) :: [(MsgType.FETCH, [0, 0, 0, 0])]) =
      ⟨[(MsgType.UPDATE, ([] : List Byte))].filterMap
          (flushedReply noHandlers),
       [(MsgType.UPDATE, [])] ++ [(MsgType.CLOSE, [])], .quit⟩ :=
  c7_close_stops noHandlers [(MsgType.UPDATE, [])]
    [(MsgType.FETCH, [0, 0, 0, 0])] []
    (by
      intro f hf
      simp only [List.mem_singleton] at hf
      subst hf
      exact ⟨some (encodeI32 1), by decide⟩)

/-- The bytes of the value string `10.0.0.1`. -/
def ip : List Byte := [49, 48, 46, 48, 46, 48, 46, 49]

/-- C8: dispatching a `LOOKUP` whose handler answers found with value
`10.0.0.1` builds the reply `result 1` followed by the 9-byte
NUL-terminated string, and reading that payload back with
`table_msg_get` recovers result `1` and exactly the string
`10.0.0.1`. -/
theorem c8_lookup_roundtrip :
    table_msg_dispatch ⟨none, none, some fun _ _ => (1, ip), none⟩
        .LOOKUP ([0, 0, 0, 0] ++ [107, 0]) =
      .ok (some (encodeI32 1 ++ (ip ++ [0]))) false ∧
    (ip ++ [0]).length = 9 ∧
    table_msg_get true 4 (encodeI32 1 ++ (ip ++ [0])) =
      some (some (encodeI32 1), ip ++ [0]) ∧
    decodeI32 (encodeI32 1) = 1 ∧
    table_msg_get true 9 (ip ++ [0]) = some (some (ip ++ [0]), []) ∧
    cstr (ip ++ [0]) = ip ∧
    table_msg_end ([] : List Byte) = some () := by decide

/-- C9: a `CHECK`/`LOOKUP` key payload may contain an embedded NUL
before the final byte; only the final byte is validated, the whole
payload is still consumed (the dispatch completes normally), and the
handler sees only the prefix before the first NUL. -/
theorem c9_embedded_nul (H : Handlers) (f : Int → List Byte → Int)
    (g : Int → List Byte → Int × List Byte) (t4 key tail : List Byte)
    (ht : t4.length = 4) (hkey : ∀ b ∈ key, b ≠ 0)
    (hlast : (key ++ 0 :: tail).getLast? = some 0)
    (hf : H.check = some f) (hg : H.lookup = some g) :
    table_msg_dispatch H .CHECK (t4 ++ (key ++ 0 :: tail)) =
      .ok (some (encodeI32 (f (decodeI32 t4) key))) false ∧
    table_msg_dispatch H .LOOKUP (t4 ++ (key ++ 0 :: tail)) =
      .ok (some (encodeI32 (g (decodeI32 t4) key).1 ++
        (if (g (decodeI32 t4) key).1 = 1
         then cstr (g (decodeI32 t4) key).2 ++ [0]
         else []))) false := by
  have hne : key ++ 0 :: tail ≠ [] := by simp
  constructor
  · rw [dispatch_check_eq H t4 _ ht hne hlast, hf, List.take_left' ht,
      cstr_append_zero key tail hkey]
  · have hd := dispatch_lookup_eq H t4 (key ++ 0 :: tail) ht hne hlast
    simp only [hg, List.take_left' ht,
      cstr_append_zero key tail hkey] at hd
    exact hd

/-- Witness for C9: key `k` with trailing garbage byte `x` after its
NUL, still NUL-terminated at the end; the handler sees just `k`. -/
theorem c9_embedded_nul_witness :
    table_msg_dispatch H2 .CHECK
        ([0, 0, 0, 0] ++ ([107] ++ 0 :: [120, 0])) =
      .ok (some (encodeI32 (fcheck (decodeI32 [0, 0, 0, 0]) [107]))) false ∧
    table_msg_dispatch H2 .LOOKUP
        ([0, 0, 0, 0] ++ ([107] ++ 0 :: [120, 0])) =
      .ok (some (encodeI32 (flookup (decodeI32 [0, 0, 0, 0]) [107]).1 ++
        (if (flookup (decodeI32 [0, 0, 0, 0]) [107]).1 = 1
         then cstr (flookup (decodeI32 [0, 0, 0, 0]) [107]).2 ++ [0]
         else []))) false :=
  c9_embedded_nul H2 fcheck flookup [0, 0, 0, 0] [107] [120, 0]
    rfl (by decide) (by decide) rfl rfl

end TableApi
